import Mathlib

/-!
Verification of the Meshtastic serial/BLE to TCP bridge
(`ble_tcp_bridge.py`, `serial_tcp_bridge.py`).

The development shallowly embeds the protocol-bridge core: the wire-frame
codec, the configuration-replay cache and its mutation rules in
`on_ble_packet`, the cache-serving path of `handle_tcp_client`, the
packet-deduplication check, and the reconnect/backoff state machine.
Protobuf payloads are embedded at message granularity: a raw payload either
parses to a `FromRadio` message or is opaque garbage, mirroring how the
bridge only ever inspects payloads through `ParseFromString` plus a handful
of `HasField` probes on a protobuf oneof.
-/

namespace MeshBridge

/-! ## Wire-frame codec (byte level)

Models `create_tcp_frame` from `ble_tcp_bridge.py` and the frame-reading
side `_read_one_frame_blocking` from `serial_tcp_bridge.py`.  Bytes are
naturals; the encoder only ever emits header bytes below 256. -/

def START1 : Nat := 0x94

def START2 : Nat := 0xC3

def MAX_PACKET_SIZE : Nat := 512

def HEADER_SIZE : Nat := 4

/-- Model of `create_tcp_frame`: 4-byte header (two markers, big-endian
16-bit length) followed by the payload.  Raising `ValueError` for an
oversized payload is modelled as `none`. -/
def create_tcp_frame (payload : List Nat) : Option (List Nat) :=
  if payload.length > MAX_PACKET_SIZE then none
  else some ([START1, START2, payload.length / 256, payload.length % 256] ++ payload)

/-- Model of `_read_one_frame_blocking`: read a 4-byte header from the
stream, validate the marker bytes, read a big-endian length, reject
oversized lengths, then read exactly `length` payload bytes.  Any failure
returns `none`; success returns the complete frame (header plus payload),
as in the source. -/
def read_one_frame (stream : List Nat) : Option (List Nat) :=
  match stream with
  | b0 :: b1 :: b2 :: b3 :: rest =>
    if b0 = START1 ∧ b1 = START2 then
      let len := b2 * 256 + b3
      if len > MAX_PACKET_SIZE then none
      else if rest.length < len then none
      else some ([b0, b1, b2, b3] ++ rest.take len)
    else none
  | _ => none

/-! ## Packet deduplication

Models the duplicate check at the top of `on_ble_packet`.  Times are
rationals (seconds); the content fingerprint (`hash(protobuf_bytes)`) is an
integer. -/

structure DedupState where
  last_packet_hash : Option Int
  last_packet_time : ℚ
deriving DecidableEq

/-- The duplicate condition of `on_ble_packet`: same fingerprint as the
previously delivered packet and arrival strictly within 0.1 s of the
previous delivery. -/
def isDuplicate (st : DedupState) (h : Int) (now : ℚ) : Bool :=
  decide (st.last_packet_hash = some h) && decide (now - st.last_packet_time < 1/10)

/-- One deduplication step: a duplicate is dropped and the state is left
untouched (the source returns before updating hash/time); otherwise the
fingerprint and delivery time are recorded and the packet is delivered.
The boolean is `true` iff the packet is delivered. -/
def dedupStep (st : DedupState) (h : Int) (now : ℚ) : DedupState × Bool :=
  if isDuplicate st h now then (st, false)
  else ({ last_packet_hash := some h, last_packet_time := now }, true)

/-! ## Reconnect backoff

Models the constants of `MeshtasticBLEBridge`, the delay computation and
loop structure of `attempt_reconnection`, and the fatal-exit branch of
`poll_from_radio`. -/

def MAX_RECONNECT_ATTEMPTS : Nat := 5

def INITIAL_RECONNECT_DELAY : ℚ := 2

def MAX_RECONNECT_DELAY : ℚ := 60

def RECONNECT_BACKOFF_FACTOR : ℚ := 2

/-- Delay computed before reconnect attempt `k` (1-indexed), exactly as in
`attempt_reconnection`:
`min(INITIAL_RECONNECT_DELAY * RECONNECT_BACKOFF_FACTOR ** (k - 1), MAX_RECONNECT_DELAY)`. -/
def reconnectDelay (k : Nat) : ℚ :=
  min (INITIAL_RECONNECT_DELAY * RECONNECT_BACKOFF_FACTOR ^ (k - 1)) MAX_RECONNECT_DELAY

structure SessionState where
  reconnect_attempts : Nat
  is_reconnecting : Bool
  running : Bool
deriving DecidableEq

/-- Body of the `while` loop of `attempt_reconnection`.  `outcomes k`
tells whether the connect call made on the attempt numbered `k` succeeds.
The fuel argument bounds the iteration count; the loop increments
`reconnect_attempts` every iteration and runs only while it is below
`MAX_RECONNECT_ATTEMPTS`, so fuel `MAX_RECONNECT_ATTEMPTS - attempts`
is always sufficient.  Returns the final state, the success flag, and the
list of backoff delays slept, one per attempt made. -/
def reconnectGo (outcomes : Nat → Bool) : Nat → SessionState → SessionState × Bool × List ℚ
  | 0, st => ({ st with is_reconnecting := false }, false, [])
  | fuel + 1, st =>
    if st.reconnect_attempts < MAX_RECONNECT_ATTEMPTS ∧ st.running then
      let a := st.reconnect_attempts + 1
      let delay := reconnectDelay a
      if outcomes a then
        ({ reconnect_attempts := 0, is_reconnecting := false, running := st.running },
          true, [delay])
      else
        if MAX_RECONNECT_ATTEMPTS ≤ a then
          ({ st with reconnect_attempts := a, is_reconnecting := false }, false, [delay])
        else
          let r := reconnectGo outcomes fuel
            { st with reconnect_attempts := a, is_reconnecting := true }
          (r.1, r.2.1, delay :: r.2.2)
    else ({ st with is_reconnecting := false }, false, [])

/-- Model of `attempt_reconnection`.  A call while a reconnection is
already in progress returns `True` immediately; otherwise the backoff loop
runs.  A successful `connect_ble` resets `reconnect_attempts` to 0 and
clears `is_reconnecting`. -/
def attempt_reconnection (outcomes : Nat → Bool) (st : SessionState) :
    SessionState × Bool × List ℚ :=
  if st.is_reconnecting then (st, true, [])
  else reconnectGo outcomes (MAX_RECONNECT_ATTEMPTS - st.reconnect_attempts)
    { st with is_reconnecting := true }

inductive PollOutcome where
  | exit (code : Nat)
  | keepPolling (st : SessionState)
deriving DecidableEq

/-- Model of the connection-lost branch of `poll_from_radio`: run
`attempt_reconnection`; on failure set `running = False` and call
`sys.exit(1)`; on success continue polling with the new session state. -/
def pollOnConnectionLost (outcomes : Nat → Bool) (st : SessionState) : PollOutcome :=
  let r := attempt_reconnection outcomes st
  if r.2.1 then .keepPolling r.1 else .exit 1

/-! ## Application messages

The bridge inspects protobuf `FromRadio` messages only through
`ParseFromString` and `HasField` probes on the `payload_variant` oneof
(`config_complete_id`, `node_info`, `packet`, plus the log-only variants),
and `ToRadio` messages only through `HasField('want_config_id')`.  The
embedding therefore models a decoded message as a tagged variant, and a
raw protobuf payload as either a serialization of such a message or opaque
garbage that fails to parse. -/

structure Position where
  val : Nat
deriving DecidableEq

structure User where
  val : Nat
deriving DecidableEq

structure DeviceMetrics where
  val : Nat
deriving DecidableEq

structure Telemetry where
  device_metrics : Option DeviceMetrics
deriving DecidableEq

structure NodeInfo where
  num : Nat
  user : Option User
  position : Option Position
  device_metrics : Option DeviceMetrics
  last_heard : Nat
deriving DecidableEq

/-- Payload bytes of a decoded `Data` sub-message: a serialization of a
`Position`, `Telemetry` or `User` message, or bytes that parse as none of
them (an attempted parse of the wrong kind raises, which the source
catches). -/
inductive DataPayload where
  | positionBytes (p : Position)
  | telemetryBytes (t : Telemetry)
  | userBytes (u : User)
  | opaqueBytes (n : Nat)
deriving DecidableEq

structure MeshData where
  portnum : Nat
  payload : DataPayload
deriving DecidableEq

/-- A `MeshPacket`: the sender field (`from`, read via `getattr`) and the
optional `decoded` data. -/
structure MeshPacket where
  fromNode : Nat
  decoded : Option MeshData
deriving DecidableEq

/-- A decoded `FromRadio` message.  The variants are the members of the
protobuf `payload_variant` oneof the bridge probes with `HasField`; every
variant it never inspects beyond logging is collapsed into `otherVariant`. -/
inductive FromRadio where
  | configComplete (id : Nat)
  | nodeInfo (ni : NodeInfo)
  | meshPacket (p : MeshPacket)
  | myInfo (n : Nat)
  | configMsg (n : Nat)
  | moduleConfig (n : Nat)
  | channel (n : Nat)
  | otherVariant (n : Nat)
deriving DecidableEq

/-- Raw protobuf payload bytes for `FromRadio`: either the serialization
of a message (protobuf round-trips) or unparseable bytes. -/
inductive Raw where
  | ok (m : FromRadio)
  | bad (n : Nat)
deriving DecidableEq

/-- Model of `FromRadio.ParseFromString`: succeeds exactly on serialized
messages; on garbage it raises, modelled as `none`. -/
def parseFromRadio : Raw → Option FromRadio
  | .ok m => some m
  | .bad _ => none

/-- Model of `SerializeToString`. -/
def serializeFromRadio (m : FromRadio) : Raw := .ok m

/-- A pre-framed TCP frame at message granularity: the 4-byte header is a
function of the payload, so a frame is determined by the raw payload it
carries. -/
structure Frame where
  payload : Raw
deriving DecidableEq

/-- Model of `create_tcp_frame` at message granularity (header prepended
to the raw payload). -/
def create_frame (r : Raw) : Frame := ⟨r⟩

/-- One cache entry, exactly as stored in `config_cache`:
`(protobuf_bytes, tcp_frame)`. -/
abbrev Entry : Type := Raw × Frame

/-! ## Config snapshot cache -/

/-- Does a raw payload parse to a `FromRadio` carrying `node_info`?  This
is the `HasField('node_info')` probe with the surrounding
parse-failure-tolerant `try`. -/
def isNodeInfoRaw : Raw → Bool
  | .ok (.nodeInfo _) => true
  | _ => false

/-- Count of node-carrying entries in the cache (the `node_count` loop run
at completion time). -/
def countNodes (cache : List Entry) : Nat :=
  cache.countP (fun e => isNodeInfoRaw e.1)

/-- The eviction pass: walk the cache in arrival order, skipping (that is,
removing) node-carrying entries while the removal budget lasts and keeping
everything else, including unparseable entries. -/
def dropOldestNodes : Nat → List Entry → List Entry
  | _, [] => []
  | 0, es => es
  | k + 1, e :: es =>
    if isNodeInfoRaw e.1 then dropOldestNodes k es
    else e :: dropOldestNodes (k + 1) es

/-- Cache size enforcement run once at the moment recording completes:
if the node-entry count exceeds the cap, remove the oldest
`node_count - max_cache_nodes` node entries. -/
def evict (maxNodes : Nat) (cache : List Entry) : List Entry :=
  let n := countNodes cache
  if n > maxNodes then dropOldestNodes (n - maxNodes) cache else cache

/-- Does this cache entry parse to a `node_info` with the given node
number?  (The match test of both update loops.) -/
def isNodeWithNum (n : Nat) (e : Entry) : Bool :=
  match parseFromRadio e.1 with
  | some (.nodeInfo ni) => ni.num = n
  | _ => false

/-- The find-and-replace loop of the runtime `node_info` branch: replace
the first entry parsing to a `node_info` with the matching number by the
incoming entry and stop; `none` when no entry matches (`node_found`
stays false). -/
def replaceNodeLoop (new : Entry) (n : Nat) : List Entry → Option (List Entry)
  | [] => none
  | e :: es =>
    if isNodeWithNum n e then some (new :: es)
    else (replaceNodeLoop new n es).map (e :: ·)

/-- The `update_type` dispatch on `decoded.portnum`: 3 is POSITION_APP,
67 is TELEMETRY_APP, 4 is NODEINFO_APP (user). -/
def updateType (portnum : Nat) : Option Nat :=
  if portnum = 3 then some 0
  else if portnum = 67 then some 1
  else if portnum = 4 then some 2
  else none

/-- Merge one position/telemetry/user update into a cached `NodeInfo`:
parse the data payload as the message type selected by `portnum` (a
mismatch raises, modelled as `none`), copy the parsed field in — for
telemetry only when `device_metrics` is present — and refresh
`last_heard` to the current time. -/
def applySub (now : Nat) (d : MeshData) (ni : NodeInfo) : Option NodeInfo :=
  if d.portnum = 3 then
    match d.payload with
    | .positionBytes p => some { ni with position := some p, last_heard := now }
    | _ => none
  else if d.portnum = 67 then
    match d.payload with
    | .telemetryBytes t =>
      some { ni with
              device_metrics := match t.device_metrics with
                | some dm => some dm
                | none => ni.device_metrics,
              last_heard := now }
    | _ => none
  else if d.portnum = 4 then
    match d.payload with
    | .userBytes u => some { ni with user := some u, last_heard := now }
    | _ => none
  else none

/-- The find-and-update loop of the runtime `packet` branch: find the
first entry parsing to a `node_info` with the matching number, merge the
update, re-serialize, re-frame, and stop; an entry whose inner payload
fails to parse is skipped and the search continues; with no match the list
is unchanged. -/
def updateLoop (now : Nat) (n : Nat) (d : MeshData) : List Entry → List Entry
  | [] => []
  | e :: es =>
    match parseFromRadio e.1 with
    | some (.nodeInfo ni) =>
      if ni.num = n then
        match applySub now d ni with
        | some ni2 =>
          let raw2 := serializeFromRadio (.nodeInfo ni2)
          (raw2, create_frame raw2) :: es
        | none => e :: updateLoop now n d es
      else e :: updateLoop now n d es
    | _ => e :: updateLoop now n d es

/-- The at-most-one-element suffix holding a list's last element; the
Python runtime branches iterate `config_cache[:-1]` and mutate or insert
in front of this suffix. -/
def lastSeg (l : List Entry) : List Entry := l.drop (l.length - 1)

/-- The cache-related state of `MeshtasticBLEBridge`.  `config_cache` is
`none` when caching is disabled (Python `None`). -/
structure BridgeCache where
  config_cache : Option (List Entry)
  config_cache_complete : Bool
  recording_config : Bool
  current_config_id : Option Nat
  max_cache_nodes : Nat
deriving DecidableEq

/-- The recording setup of `prewarm_cache`: set the recording flag,
remember the config id, clear the cache, reset completeness. -/
def beginRecording (cid : Nat) (st : BridgeCache) : BridgeCache :=
  { st with recording_config := true,
            current_config_id := some cid,
            config_cache := st.config_cache.map (fun _ => []),
            config_cache_complete := false }

/-- The cache-maintenance block of `on_ble_packet` (the body of
`if self.config_cache is not None`), as a pure state transformer.  `now`
is the current time used to refresh `last_heard`.  A raw payload that
fails to parse leaves the state untouched (the surrounding `try` logs and
continues).  The branch order is the source's `if`/`elif` chain:
completion marker first, then unconditional append while recording, then
the two runtime-update branches guarded by completeness. -/
def cacheStep (now : Nat) (st : BridgeCache) (raw : Raw) : BridgeCache :=
  match st.config_cache with
  | none => st
  | some cache =>
    match parseFromRadio raw with
    | none => st
    | some m =>
      let entry : Entry := (raw, create_frame raw)
      match m with
      | .configComplete cid =>
        if st.recording_config ∧ st.current_config_id = some cid then
          { st with
              config_cache := some (evict st.max_cache_nodes (cache ++ [entry])),
              config_cache_complete := true,
              recording_config := false }
        else st
      | m2 =>
        if st.recording_config then
          { st with config_cache := some (cache ++ [entry]) }
        else
          match m2 with
          | .nodeInfo ni =>
            if st.config_cache_complete then
              match replaceNodeLoop entry ni.num cache.dropLast with
              | some replaced =>
                { st with config_cache := some (replaced ++ lastSeg cache) }
              | none =>
                { st with config_cache := some (cache.dropLast ++ entry :: lastSeg cache) }
            else st
          | .meshPacket p =>
            if st.config_cache_complete then
              match p.decoded with
              | none => st
              | some d =>
                if (updateType d.portnum).isSome ∧ p.fromNode ≠ 0 then
                  { st with
                      config_cache :=
                        some (updateLoop now p.fromNode d cache.dropLast ++ lastSeg cache) }
                else st
            else st
          | _ => st

/-! ## Serving the cache to a client -/

/-- Assignment `from_radio.config_complete_id = requested_id`:
`config_complete_id` is a member of the `payload_variant` oneof, so the
assignment replaces whatever variant was set with a completion marker
carrying the requested id. -/
def setConfigCompleteId (m : FromRadio) (id : Nat) : FromRadio :=
  match m with
  | _ => .configComplete id

/-- The replay loop of `handle_tcp_client`: every entry but the last is
written from its pre-framed bytes; the last entry is re-parsed, has its
completion id rewritten to the requested id, and is re-serialized and
re-framed; a parse failure on the last entry breaks out of the loop and
nothing is written for it.  Returns the frames written to the client in
order. -/
def serveLoop (reqId : Nat) : List Entry → List Frame
  | [] => []
  | [e] =>
    match parseFromRadio e.1 with
    | some m =>
      [create_frame (serializeFromRadio (setConfigCompleteId m reqId))]
    | none => []
  | e :: e2 :: es => e.2 :: serveLoop reqId (e2 :: es)

/-- A decoded `ToRadio` message: the bridge only probes
`HasField('want_config_id')`. -/
inductive ToRadio where
  | wantConfig (id : Nat)
  | otherTo (n : Nat)
deriving DecidableEq

/-- Raw payload bytes of an inbound client frame. -/
inductive RawTo where
  | ok (m : ToRadio)
  | bad (n : Nat)
deriving DecidableEq

/-- Model of `ToRadio.ParseFromString`. -/
def parseToRadio : RawTo → Option ToRadio
  | .ok m => some m
  | .bad _ => none

/-- What a client-frame step emits: the frames written back to this
client, and the messages forwarded to the device. -/
structure ClientFrameResult where
  toClient : List Frame
  toDevice : List ToRadio
deriving DecidableEq

/-- The per-frame body of `handle_tcp_client` after the payload has been
read: parse the `ToRadio` (a failure is logged and the frame dropped); a
`want_config_id` request with caching enabled and a complete cache is
served from the cache and not forwarded; everything else is sent to the
device. -/
def handleClientFrame (st : BridgeCache) (raw : RawTo) : ClientFrameResult :=
  match parseToRadio raw with
  | none => ⟨[], []⟩
  | some m =>
    match st.config_cache, m with
    | some cache, .wantConfig reqId =>
      if st.config_cache_complete then ⟨serveLoop reqId cache, []⟩
      else ⟨[], [m]⟩
    | _, m2 => ⟨[], [m2]⟩

/-- The node number carried by a cache entry, when the entry parses to a
`node_info` message. -/
def nodeNumOf (e : Entry) : Option Nat :=
  match parseFromRadio e.1 with
  | some (.nodeInfo ni) => some ni.num
  | _ => none

/-- The node numbers present in the cache, in cache order. -/
def cacheNodeNums (c : List Entry) : List Nat := c.filterMap nodeNumOf

/-! ## Sample data used by concrete scenarios -/

/-- Serialized `FromRadio` carrying a `node_info` for node `i`. -/
def nodeRaw (i : Nat) : Raw := .ok (.nodeInfo ⟨i, none, none, none, 0⟩)

/-- Cache entry recorded for `nodeRaw i`. -/
def nodeEntry (i : Nat) : Entry := (nodeRaw i, create_frame (nodeRaw i))

/-- Serialized completion marker with id `a`. -/
def completeRaw (a : Nat) : Raw := .ok (.configComplete a)

/-- Cache entry recorded for the completion marker. -/
def completeEntry (a : Nat) : Entry := (completeRaw a, create_frame (completeRaw a))

/-- A serialized non-node message (`my_info`). -/
def myInfoRaw : Raw := .ok (.myInfo 0)

/-- Cache entry recorded for `myInfoRaw`. -/
def myInfoEntry : Entry := (myInfoRaw, create_frame myInfoRaw)

/-- The eviction scenario of the spec: start recording under id 77 on a
bridge capped at 500 nodes, receive one non-node packet and 600 distinct
node packets. -/
def evictionFed : BridgeCache :=
  ((List.range 600).map nodeRaw).foldl (cacheStep 0)
    (cacheStep 0 (beginRecording 77 ⟨some [], false, false, none, 500⟩) myInfoRaw)

/-- The eviction scenario after the completion marker arrives. -/
def evictionDone : BridgeCache := cacheStep 0 evictionFed (completeRaw 77)

end MeshBridge

namespace MeshBridge

/-! ## Basic list facts about the cache helpers -/

theorem lastSeg_concat (l : List Entry) (t : Entry) : lastSeg (l ++ [t]) = [t] := by
  simp [lastSeg]

theorem dropLast_append_lastSeg (l : List Entry) : l.dropLast ++ lastSeg l = l := by
  simp [lastSeg, List.dropLast_eq_take, List.take_append_drop]

/-! ## Frame codec (claim C9) -/

/-- C9: every payload of length at most 512 encodes to a frame that the
frame reader accepts unchanged and whose payload part is exactly the
original payload; every larger payload is rejected at encode time. -/
theorem frame_round_trip (p : List Nat) :
    (p.length ≤ MAX_PACKET_SIZE →
      ∃ f, create_tcp_frame p = some f ∧ read_one_frame f = some f ∧
        f.drop HEADER_SIZE = p) ∧
    (p.length > MAX_PACKET_SIZE → create_tcp_frame p = none) := by
  constructor
  · intro hlen
    have e : p.length / 256 * 256 + p.length % 256 = p.length := Nat.div_add_mod' _ _
    refine ⟨START1 :: START2 :: p.length / 256 :: p.length % 256 :: p, ?_, ?_, ?_⟩
    · simp [create_tcp_frame, Nat.not_lt.mpr hlen]
    · have hu : read_one_frame (START1 :: START2 :: p.length / 256 :: p.length % 256 :: p) =
          (if p.length / 256 * 256 + p.length % 256 > MAX_PACKET_SIZE then none
           else if p.length < p.length / 256 * 256 + p.length % 256 then none
           else some ([START1, START2, p.length / 256, p.length % 256] ++
             p.take (p.length / 256 * 256 + p.length % 256))) := by
        simp [read_one_frame]
      rw [hu, e, if_neg (by exact Nat.not_lt.mpr hlen), if_neg (lt_irrefl _),
        List.take_length]
      simp
    · simp [HEADER_SIZE]
  · intro hlen
    simp [create_tcp_frame, hlen]

/-- Witness for C9 at concrete payloads: a 3-byte and a 512-byte payload
round-trip; a 513-byte payload is rejected. -/
theorem frame_round_trip_witness :
    (∃ f, create_tcp_frame [1, 2, 3] = some f ∧ read_one_frame f = some f ∧
      f.drop HEADER_SIZE = [1, 2, 3]) ∧
    (∃ f, create_tcp_frame (List.replicate 512 7) = some f ∧
      read_one_frame f = some f ∧ f.drop HEADER_SIZE = List.replicate 512 7) ∧
    create_tcp_frame (List.replicate 513 7) = none :=
  ⟨(frame_round_trip [1, 2, 3]).1 (by rw [List.length_cons, List.length_cons,
      List.length_cons, List.length_nil]; decide),
   (frame_round_trip (List.replicate 512 7)).1 (by rw [List.length_replicate]; decide),
   (frame_round_trip (List.replicate 513 7)).2 (by rw [List.length_replicate]; decide)⟩

/-! ## Backoff sequence (claim C7) -/

/-- C7: the delay computed before reconnect attempt `k` is exactly
`min(2.0 * 2.0 ^ (k - 1), 60.0)` seconds, and the delays for attempts 1
through 7 are 2, 4, 8, 16, 32, 60 and 60 seconds. -/
theorem backoff_sequence :
    (∀ k : Nat, reconnectDelay k = min (2 * 2 ^ (k - 1)) 60) ∧
    (List.range 7).map (fun i => reconnectDelay (i + 1)) =
      ([2, 4, 8, 16, 32, 60, 60] : List ℚ) := by
  have hval : ∀ k : Nat, reconnectDelay k = min (2 * 2 ^ (k - 1)) 60 := fun k => rfl
  refine ⟨hval, ?_⟩
  have hr : List.range 7 = [0, 1, 2, 3, 4, 5, 6] := by decide
  rw [hr]
  simp only [List.map_cons, List.map_nil, hval]
  norm_num [min_def]

/-! ## Deduplication window (claim C6) -/

/-- C6: a packet is dropped iff its fingerprint equals the previously
delivered packet's fingerprint and it arrives strictly within 0.1 s of the
previous delivery; concretely, after a delivery at time `t` the same
payload is dropped at `t + 0.05` and delivered at `t + 0.15`. -/
theorem dedup_window (st st0 : DedupState) (h : Int) (now t : ℚ)
    (hdel : (dedupStep st0 h t).2 = true) :
    ((dedupStep st h now).2 = false ↔
      st.last_packet_hash = some h ∧ now - st.last_packet_time < 1/10) ∧
    (dedupStep (dedupStep st0 h t).1 h (t + 5/100)).2 = false ∧
    (dedupStep (dedupStep st0 h t).1 h (t + 15/100)).2 = true := by
  have hst1 : (dedupStep st0 h t).1 = ⟨some h, t⟩ := by
    by_cases hdup : isDuplicate st0 h t
    · simp [dedupStep, hdup] at hdel
    · simp [dedupStep, hdup]
  refine ⟨?_, ?_, ?_⟩
  · by_cases hdup : isDuplicate st h now
    · simp only [dedupStep, if_pos hdup]
      simpa [isDuplicate] using hdup
    · simp only [dedupStep, if_neg hdup]
      simpa [isDuplicate] using hdup
  · rw [hst1]
    have : isDuplicate ⟨some h, t⟩ h (t + 5/100) = true := by
      simp [isDuplicate]
      norm_num
    simp [dedupStep, this]
  · rw [hst1]
    have : isDuplicate ⟨some h, t⟩ h (t + 15/100) = false := by
      simp [isDuplicate]
      norm_num
    simp [dedupStep, this]

/-! ## Cache replay (claims C1, C2) -/

theorem serveLoop_cons (B : Nat) (e : Entry) (l : List Entry) (h : l ≠ []) :
    serveLoop B (e :: l) = e.2 :: serveLoop B l := by
  cases l with
  | nil => exact absurd rfl h
  | cons x xs => rfl

theorem serveLoop_concat (B : Nat) (pre : List Entry) (t : Entry) :
    serveLoop B (pre ++ [t]) = pre.map Prod.snd ++ serveLoop B [t] := by
  induction pre with
  | nil => simp
  | cons e es ih =>
    rw [List.cons_append, serveLoop_cons B e (es ++ [t]) (by simp), ih]
    simp

/-- C1: for a complete cache recorded under request id `A` (so its
terminal entry is the completion marker for `A`), serving a client request
with id `B` emits every entry's pre-framed bytes in arrival order except
the terminal entry, which is re-decoded, has its completion id rewritten
to `B` and is re-encoded; replay is a pure function of the cache, and
`replay B` equals `replay A` except that the terminal frame's payload
decodes to a completion marker with id `B`. -/
theorem cache_replay_substitution (pre : List Entry) (A B : Nat) (f : Frame)
    (cache : List Entry)
    (hc : cache = pre ++ [(Raw.ok (.configComplete A), f)]) :
    serveLoop B cache =
      pre.map Prod.snd ++ [create_frame (Raw.ok (.configComplete B))] ∧
    serveLoop A cache =
      pre.map Prod.snd ++ [create_frame (Raw.ok (.configComplete A))] ∧
    (serveLoop B cache).dropLast = (serveLoop A cache).dropLast ∧
    (∃ fr, (serveLoop B cache).getLast? = some fr ∧
      parseFromRadio fr.payload = some (.configComplete B)) := by
  subst hc
  have hB : serveLoop B (pre ++ [(Raw.ok (.configComplete A), f)]) =
      pre.map Prod.snd ++ [create_frame (Raw.ok (.configComplete B))] := by
    rw [serveLoop_concat]
    simp [serveLoop, parseFromRadio, setConfigCompleteId, serializeFromRadio]
  have hA : serveLoop A (pre ++ [(Raw.ok (.configComplete A), f)]) =
      pre.map Prod.snd ++ [create_frame (Raw.ok (.configComplete A))] := by
    rw [serveLoop_concat]
    simp [serveLoop, parseFromRadio, setConfigCompleteId, serializeFromRadio]
  refine ⟨hB, hA, ?_, ?_⟩
  · rw [hA, hB, List.dropLast_concat, List.dropLast_concat]
  · refine ⟨create_frame (Raw.ok (.configComplete B)), ?_, rfl⟩
    rw [hB]
    simp

/-- Witness for C1 at a concrete two-entry cache. -/
theorem cache_replay_substitution_witness :
    serveLoop 9 [nodeEntry 1, completeEntry 7] =
      [nodeEntry 1].map Prod.snd ++ [create_frame (Raw.ok (.configComplete 9))] ∧
    serveLoop 7 [nodeEntry 1, completeEntry 7] =
      [nodeEntry 1].map Prod.snd ++ [create_frame (Raw.ok (.configComplete 7))] ∧
    (serveLoop 9 [nodeEntry 1, completeEntry 7]).dropLast =
      (serveLoop 7 [nodeEntry 1, completeEntry 7]).dropLast ∧
    (∃ fr, (serveLoop 9 [nodeEntry 1, completeEntry 7]).getLast? = some fr ∧
      parseFromRadio fr.payload = some (.configComplete 9)) :=
  cache_replay_substitution [nodeEntry 1] 7 9
    (create_frame (completeRaw 7)) [nodeEntry 1, completeEntry 7] rfl

/-- C2: an inbound client frame that decodes to a configuration request is
served entirely from the cache when caching is enabled and the cache is
complete — exactly one frame per cache entry when the cache ends in its
terminal completion marker — and nothing is forwarded to the device；
when the cache is not complete, the decoded request is forwarded to the
device and nothing is served from the cache. -/
theorem config_request_short_circuit (st : BridgeCache) (raw : RawTo) (reqId : Nat)
    (hparse : parseToRadio raw = some (.wantConfig reqId)) :
    (∀ cache, st.config_cache = some cache → st.config_cache_complete = true →
      handleClientFrame st raw = ⟨serveLoop reqId cache, []⟩ ∧
      (∀ A pre f, cache = pre ++ [(Raw.ok (.configComplete A), f)] →
        (serveLoop reqId cache).length = cache.length)) ∧
    (st.config_cache_complete = false →
      handleClientFrame st raw = ⟨[], [.wantConfig reqId]⟩) := by
  constructor
  · intro cache hc hcomp
    constructor
    · simp [handleClientFrame, hparse, hc, hcomp]
    · intro A pre f hshape
      subst hshape
      rw [serveLoop_concat]
      simp [serveLoop, parseFromRadio, setConfigCompleteId, serializeFromRadio]
  · intro hcomp
    cases hcc : st.config_cache with
    | none => simp [handleClientFrame, hparse, hcc]
    | some cache => simp [handleClientFrame, hparse, hcc, hcomp]

/-- Witness for C2: a complete two-entry cache is served with two frames
and no device traffic; the same request against an incomplete cache is
forwarded. -/
theorem config_request_short_circuit_witness :
    (handleClientFrame ⟨some [nodeEntry 1, completeEntry 7], true, false, some 7, 500⟩
        (RawTo.ok (.wantConfig 9)) =
      ⟨serveLoop 9 [nodeEntry 1, completeEntry 7], []⟩ ∧
     (serveLoop 9 [nodeEntry 1, completeEntry 7]).length =
      ([nodeEntry 1, completeEntry 7] : List Entry).length) ∧
    handleClientFrame ⟨some [], false, false, none, 500⟩ (RawTo.ok (.wantConfig 9)) =
      ⟨[], [.wantConfig 9]⟩ := by
  have h1 := (config_request_short_circuit
    ⟨some [nodeEntry 1, completeEntry 7], true, false, some 7, 500⟩
    (RawTo.ok (.wantConfig 9)) 9 rfl).1 [nodeEntry 1, completeEntry 7] rfl rfl
  have h2 := (config_request_short_circuit
    ⟨some [], false, false, none, 500⟩ (RawTo.ok (.wantConfig 9)) 9 rfl).2 rfl
  exact ⟨⟨h1.1, h1.2 7 [nodeEntry 1] (create_frame (completeRaw 7)) rfl⟩, h2⟩

/-! ## Recording and eviction (claim C3) -/

theorem set_same_cache (st : BridgeCache) (c : List Entry)
    (hc : st.config_cache = some c) :
    ({ st with config_cache := some c } : BridgeCache) = st := by
  cases st
  simp_all

theorem cacheStep_recording_append (now : Nat) (st : BridgeCache) (c : List Entry)
    (m : FromRadio) (hc : st.config_cache = some c) (hr : st.recording_config = true)
    (hm : ∀ cid, m ≠ .configComplete cid) :
    cacheStep now st (Raw.ok m) =
      { st with config_cache := some (c ++ [(Raw.ok m, create_frame (Raw.ok m))]) } := by
  cases m with
  | configComplete cid => exact absurd rfl (hm cid)
  | nodeInfo ni => simp [cacheStep, hc, parseFromRadio, hr]
  | meshPacket p => simp [cacheStep, hc, parseFromRadio, hr]
  | myInfo n => simp [cacheStep, hc, parseFromRadio, hr]
  | configMsg n => simp [cacheStep, hc, parseFromRadio, hr]
  | moduleConfig n => simp [cacheStep, hc, parseFromRadio, hr]
  | channel n => simp [cacheStep, hc, parseFromRadio, hr]
  | otherVariant n => simp [cacheStep, hc, parseFromRadio, hr]

theorem foldl_record_nodes (l : List Nat) : ∀ (st : BridgeCache) (c : List Entry),
    st.config_cache = some c → st.recording_config = true →
    (l.map nodeRaw).foldl (cacheStep 0) st =
      { st with config_cache := some (c ++ l.map nodeEntry) } := by
  induction l with
  | nil =>
    intro st c hc hr
    simp only [List.map_nil, List.foldl_nil, List.append_nil]
    exact (set_same_cache st c hc).symm
  | cons a l ih =>
    intro st c hc hr
    rw [List.map_cons, List.foldl_cons]
    have hstep : cacheStep 0 st (nodeRaw a) =
        { st with config_cache := some (c ++ [nodeEntry a]) } := by
      have := cacheStep_recording_append 0 st c (.nodeInfo ⟨a, none, none, none, 0⟩)
        hc hr (fun cid h => by cases h)
      simpa [nodeRaw, nodeEntry] using this
    rw [hstep, ih ({ st with config_cache := some (c ++ [nodeEntry a]) })
      (c ++ [nodeEntry a]) rfl hr]
    simp

theorem cacheStep_complete_marker (now : Nat) (st : BridgeCache) (c : List Entry)
    (cid : Nat) (hc : st.config_cache = some c) (hr : st.recording_config = true)
    (hid : st.current_config_id = some cid) :
    cacheStep now st (completeRaw cid) =
      { st with
          config_cache := some (evict st.max_cache_nodes (c ++ [completeEntry cid])),
          config_cache_complete := true,
          recording_config := false } := by
  simp [cacheStep, hc, parseFromRadio, completeRaw, completeEntry, hr, hid]

theorem countNodes_append (a b : List Entry) :
    countNodes (a ++ b) = countNodes a + countNodes b := by
  simp [countNodes, List.countP_append]

theorem countNodes_map_nodeEntry (l : List Nat) :
    countNodes (l.map nodeEntry) = l.length := by
  unfold countNodes
  rw [List.countP_map]
  simp [Function.comp, nodeEntry, nodeRaw, isNodeInfoRaw]

theorem dropOldestNodes_zero (es : List Entry) : dropOldestNodes 0 es = es := by
  cases es <;> rfl

theorem dropOldestNodes_cons_nonNode (k : Nat) (e : Entry) (es : List Entry)
    (h : isNodeInfoRaw e.1 = false) :
    dropOldestNodes k (e :: es) = e :: dropOldestNodes k es := by
  cases k with
  | zero => rw [dropOldestNodes_zero, dropOldestNodes_zero]
  | succ k => simp [dropOldestNodes, h]

theorem dropOldestNodes_all_nodes (l : List Entry) (rest : List Entry) :
    ∀ k, (∀ e ∈ l, isNodeInfoRaw e.1 = true) → k ≤ l.length →
    dropOldestNodes k (l ++ rest) = l.drop k ++ rest := by
  induction l with
  | nil =>
    intro k _ hk
    have : k = 0 := Nat.le_zero.mp hk
    subst this
    simp [dropOldestNodes_zero]
  | cons e es ih =>
    intro k hall hk
    cases k with
    | zero => rw [dropOldestNodes_zero]; simp
    | succ k =>
      have he : isNodeInfoRaw e.1 = true := hall e (by simp)
      have : dropOldestNodes (k + 1) ((e :: es) ++ rest) =
          dropOldestNodes k (es ++ rest) := by
        simp [dropOldestNodes, he]
      rw [this, ih k (fun x hx => hall x (by simp [hx])) (Nat.succ_le_succ_iff.mp hk)]
      simp

/-- C3: recording one non-node packet and 600 distinct node packets into a
bridge capped at 500 nodes and then completing produces a cache holding
exactly the 500 most-recently-inserted node entries (the oldest 100 in
arrival order are evicted), with the non-node entry and the terminal
completion entry untouched; the resulting node-entry count is exactly
500. -/
theorem eviction_bound :
    evictionDone.config_cache =
      some (myInfoEntry ::
        (((List.range 600).drop 100).map nodeEntry ++ [completeEntry 77])) ∧
    evictionDone.config_cache.map countNodes = some 500 ∧
    evictionDone.config_cache_complete = true := by
  have hstart : beginRecording 77 ⟨some [], false, false, none, 500⟩ =
      ⟨some [], false, true, some 77, 500⟩ := rfl
  have h1 : cacheStep 0 (⟨some [], false, true, some 77, 500⟩ : BridgeCache) myInfoRaw =
      ⟨some [myInfoEntry], false, true, some 77, 500⟩ := by
    have := cacheStep_recording_append 0 ⟨some [], false, true, some 77, 500⟩ []
      (.myInfo 0) rfl rfl (fun cid h => by cases h)
    simpa [myInfoRaw, myInfoEntry] using this
  have h2 : evictionFed =
      ⟨some (myInfoEntry :: (List.range 600).map nodeEntry), false, true, some 77, 500⟩ := by
    unfold evictionFed
    rw [hstart, h1]
    rw [foldl_record_nodes (List.range 600) _ [myInfoEntry] rfl rfl]
    rfl
  have hall : ∀ e ∈ (List.range 600).map nodeEntry, isNodeInfoRaw e.1 = true := by
    intro e he
    obtain ⟨i, _, rfl⟩ := List.mem_map.mp he
    rfl
  have hcount : countNodes (myInfoEntry ::
      ((List.range 600).map nodeEntry ++ [completeEntry 77])) = 600 := by
    have e1 : myInfoEntry :: ((List.range 600).map nodeEntry ++ [completeEntry 77]) =
        ([myInfoEntry] ++ (List.range 600).map nodeEntry) ++ [completeEntry 77] := by
      simp
    rw [e1, countNodes_append, countNodes_append, countNodes_map_nodeEntry]
    have d1 : countNodes [myInfoEntry] = 0 := by decide
    have d2 : countNodes [completeEntry 77] = 0 := by decide
    rw [d1, d2]
    simp
  have hevict : evict 500 (myInfoEntry ::
      ((List.range 600).map nodeEntry ++ [completeEntry 77])) =
      myInfoEntry :: (((List.range 600).map nodeEntry).drop 100 ++ [completeEntry 77]) := by
    unfold evict
    rw [hcount]
    rw [if_pos (by norm_num)]
    have h100 : (600 : Nat) - 500 = 100 := by norm_num
    rw [h100]
    rw [dropOldestNodes_cons_nonNode 100 myInfoEntry _ rfl]
    rw [dropOldestNodes_all_nodes ((List.range 600).map nodeEntry) [completeEntry 77]
      100 hall (by simp)]
  have h3 : evictionDone =
      ⟨some (myInfoEntry ::
        (((List.range 600).map nodeEntry).drop 100 ++ [completeEntry 77])),
        true, false, some 77, 500⟩ := by
    unfold evictionDone
    rw [h2]
    rw [cacheStep_complete_marker 0 _ (myInfoEntry :: (List.range 600).map nodeEntry)
      77 rfl rfl rfl]
    have : (myInfoEntry :: (List.range 600).map nodeEntry) ++ [completeEntry 77] =
        myInfoEntry :: ((List.range 600).map nodeEntry ++ [completeEntry 77]) := by simp
    rw [this, hevict]
  rw [h3]
  refine ⟨by rw [List.map_drop], ?_, rfl⟩
  show some (countNodes (myInfoEntry ::
      (((List.range 600).map nodeEntry).drop 100 ++ [completeEntry 77]))) = some 500
  have hc1 : countNodes (myInfoEntry ::
      (((List.range 600).map nodeEntry).drop 100 ++ [completeEntry 77])) =
      countNodes (((List.range 600).map nodeEntry).drop 100) := by
    have e1 : myInfoEntry ::
        (((List.range 600).map nodeEntry).drop 100 ++ [completeEntry 77]) =
        ([myInfoEntry] ++ ((List.range 600).map nodeEntry).drop 100) ++
          [completeEntry 77] := by simp
    rw [e1, countNodes_append, countNodes_append]
    have d1 : countNodes [myInfoEntry] = 0 := by decide
    have d2 : countNodes [completeEntry 77] = 0 := by decide
    rw [d1, d2]
    simp
  rw [hc1, ← List.map_drop, countNodes_map_nodeEntry]
  simp

/-- Witness for C6: concrete run starting from a fresh dedup state. -/
theorem dedup_window_witness :
    ((dedupStep ⟨some 1, 0⟩ 1 (5/100)).2 = false ↔
      (some 1 : Option Int) = some 1 ∧ (5/100 : ℚ) - 0 < 1/10) ∧
    (dedupStep (dedupStep ⟨none, 0⟩ 1 0).1 1 (0 + 5/100)).2 = false ∧
    (dedupStep (dedupStep ⟨none, 0⟩ 1 0).1 1 (0 + 15/100)).2 = true :=
  dedup_window ⟨some 1, 0⟩ ⟨none, 0⟩ 1 (5/100) 0 (by simp [dedupStep, isDuplicate])

/-! ## Runtime cache updates: supporting lemmas -/

theorem replaceNodeLoop_not_found (new : Entry) (n : Nat) (l : List Entry)
    (h : ∀ e ∈ l, isNodeWithNum n e = false) : replaceNodeLoop new n l = none := by
  induction l with
  | nil => rfl
  | cons e es ih =>
    have he := h e (by simp)
    simp [replaceNodeLoop, he, ih (fun x hx => h x (by simp [hx]))]

theorem replaceNodeLoop_found (new : Entry) (n : Nat) (p1 : List Entry) (e : Entry)
    (p2 : List Entry) (h1 : ∀ x ∈ p1, isNodeWithNum n x = false)
    (he : isNodeWithNum n e = true) :
    replaceNodeLoop new n (p1 ++ e :: p2) = some (p1 ++ new :: p2) := by
  induction p1 with
  | nil => simp [replaceNodeLoop, he]
  | cons x xs ih =>
    have hx := h1 x (by simp)
    simp [replaceNodeLoop, hx, ih (fun y hy => h1 y (by simp [hy]))]

theorem updateLoop_skip (now n : Nat) (d : MeshData) (x : Entry) (rest : List Entry)
    (hx : isNodeWithNum n x = false) :
    updateLoop now n d (x :: rest) = x :: updateLoop now n d rest := by
  cases hp : parseFromRadio x.1 with
  | none => simp [updateLoop, hp]
  | some m => cases m <;> simp_all [updateLoop, isNodeWithNum, hp]

theorem updateLoop_not_found (now n : Nat) (d : MeshData) (l : List Entry)
    (h : ∀ e ∈ l, isNodeWithNum n e = false) : updateLoop now n d l = l := by
  induction l with
  | nil => rfl
  | cons e es ih =>
    rw [updateLoop_skip now n d e es (h e (by simp)),
      ih (fun x hx => h x (by simp [hx]))]

theorem updateLoop_found (now n : Nat) (d : MeshData) (p1 : List Entry) (e : Entry)
    (p2 : List Entry) (ni ni2 : NodeInfo) (h1 : ∀ x ∈ p1, isNodeWithNum n x = false)
    (he : e.1 = Raw.ok (.nodeInfo ni)) (hn : ni.num = n)
    (ha : applySub now d ni = some ni2) :
    updateLoop now n d (p1 ++ e :: p2) =
      p1 ++ (Raw.ok (.nodeInfo ni2), create_frame (Raw.ok (.nodeInfo ni2))) :: p2 := by
  induction p1 with
  | nil =>
    simp only [List.nil_append]
    simp [updateLoop, he, parseFromRadio, hn, ha, serializeFromRadio]
  | cons x xs ih =>
    rw [List.cons_append, updateLoop_skip now n d x (xs ++ e :: p2) (h1 x (by simp)),
      ih (fun y hy => h1 y (by simp [hy]))]
    rfl

theorem applySub_num (now : Nat) (d : MeshData) (ni ni2 : NodeInfo)
    (h : applySub now d ni = some ni2) : ni2.num = ni.num := by
  unfold applySub at h
  repeat' split at h
  all_goals try cases h
  all_goals rfl

theorem applySub_last_heard (now : Nat) (d : MeshData) (ni ni2 : NodeInfo)
    (h : applySub now d ni = some ni2) : ni2.last_heard = now := by
  unfold applySub at h
  repeat' split at h
  all_goals try cases h
  all_goals rfl

theorem applySub_portnum (now : Nat) (d : MeshData) (ni ni2 : NodeInfo)
    (h : applySub now d ni = some ni2) : (updateType d.portnum).isSome = true := by
  by_cases h3 : d.portnum = 3
  · simp [updateType, h3]
  · by_cases h67 : d.portnum = 67
    · simp [updateType, h3, h67]
    · by_cases h4 : d.portnum = 4
      · simp [updateType, h3, h67, h4]
      · simp [applySub, h3, h67, h4] at h

theorem updateLoop_length (now n : Nat) (d : MeshData) (l : List Entry) :
    (updateLoop now n d l).length = l.length := by
  induction l with
  | nil => rfl
  | cons e es ih =>
    cases hp : parseFromRadio e.1 with
    | none => simp [updateLoop, hp, ih]
    | some m =>
      cases m with
      | nodeInfo ni =>
        by_cases hn : ni.num = n
        · cases ha : applySub now d ni with
          | none => simp [updateLoop, hp, hn, ha, ih]
          | some ni2 => simp [updateLoop, hp, hn, ha]
        · simp [updateLoop, hp, hn, ih]
      | configComplete cid => simp [updateLoop, hp, ih]
      | meshPacket p => simp [updateLoop, hp, ih]
      | myInfo a => simp [updateLoop, hp, ih]
      | configMsg a => simp [updateLoop, hp, ih]
      | moduleConfig a => simp [updateLoop, hp, ih]
      | channel a => simp [updateLoop, hp, ih]
      | otherVariant a => simp [updateLoop, hp, ih]

theorem cacheNodeNums_cons (e : Entry) (es : List Entry) :
    cacheNodeNums (e :: es) =
      match nodeNumOf e with
      | some b => b :: cacheNodeNums es
      | none => cacheNodeNums es := by
  unfold cacheNodeNums
  rw [List.filterMap_cons]
  cases nodeNumOf e <;> rfl

theorem cacheNodeNums_updateLoop (now n : Nat) (d : MeshData) (l : List Entry) :
    cacheNodeNums (updateLoop now n d l) = cacheNodeNums l := by
  induction l with
  | nil => rfl
  | cons e es ih =>
    cases hp : parseFromRadio e.1 with
    | none =>
      rw [updateLoop_skip now n d e es (by simp [isNodeWithNum, hp]),
        cacheNodeNums_cons, cacheNodeNums_cons, ih]
    | some m =>
      cases m with
      | nodeInfo ni =>
        by_cases hn : ni.num = n
        · cases ha : applySub now d ni with
          | none =>
            have hstep : updateLoop now n d (e :: es) = e :: updateLoop now n d es := by
              simp [updateLoop, hp, hn, ha]
            rw [hstep, cacheNodeNums_cons, cacheNodeNums_cons, ih]
          | some ni2 =>
            have hstep : updateLoop now n d (e :: es) =
                (Raw.ok (.nodeInfo ni2), create_frame (Raw.ok (.nodeInfo ni2))) :: es := by
              simp [updateLoop, hp, hn, ha, serializeFromRadio]
            rw [hstep, cacheNodeNums_cons, cacheNodeNums_cons]
            have h1 : nodeNumOf
                (Raw.ok (.nodeInfo ni2), create_frame (Raw.ok (.nodeInfo ni2))) =
                some ni2.num := rfl
            have h2 : nodeNumOf e = some ni.num := by simp [nodeNumOf, hp]
            rw [h1, h2, applySub_num now d ni ni2 ha]
        · rw [updateLoop_skip now n d e es (by simp [isNodeWithNum, hp, hn]),
            cacheNodeNums_cons, cacheNodeNums_cons, ih]
      | configComplete cid =>
        rw [updateLoop_skip now n d e es (by simp [isNodeWithNum, hp]),
          cacheNodeNums_cons, cacheNodeNums_cons, ih]
      | meshPacket p =>
        rw [updateLoop_skip now n d e es (by simp [isNodeWithNum, hp]),
          cacheNodeNums_cons, cacheNodeNums_cons, ih]
      | myInfo a =>
        rw [updateLoop_skip now n d e es (by simp [isNodeWithNum, hp]),
          cacheNodeNums_cons, cacheNodeNums_cons, ih]
      | configMsg a =>
        rw [updateLoop_skip now n d e es (by simp [isNodeWithNum, hp]),
          cacheNodeNums_cons, cacheNodeNums_cons, ih]
      | moduleConfig a =>
        rw [updateLoop_skip now n d e es (by simp [isNodeWithNum, hp]),
          cacheNodeNums_cons, cacheNodeNums_cons, ih]
      | channel a =>
        rw [updateLoop_skip now n d e es (by simp [isNodeWithNum, hp]),
          cacheNodeNums_cons, cacheNodeNums_cons, ih]
      | otherVariant a =>
        rw [updateLoop_skip now n d e es (by simp [isNodeWithNum, hp]),
          cacheNodeNums_cons, cacheNodeNums_cons, ih]

/-! ## Cache updates after completion (claims C4, C5, C10) -/

/-- C4 fails as stated: (i) against a completed cache holding only its
terminal entry, a position update (`portnum` 3) from node 5 — which has no
node entry — leaves the cache completely unchanged, whereas the claim says
a new node entry is inserted immediately before the terminal entry;
(ii) replacing an existing node entry with a newly arrived `NodeInfo`
stores the incoming payload verbatim: its `last_heard` stays 3 even though
the current time is 1000, so the last-heard timestamp is not refreshed. -/
theorem apply_update_claim_counterexample :
    cacheStep 1000 ⟨some [completeEntry 7], true, false, some 7, 500⟩
      (Raw.ok (.meshPacket ⟨5, some ⟨3, .positionBytes ⟨11⟩⟩⟩)) =
      ⟨some [completeEntry 7], true, false, some 7, 500⟩ ∧
    (cacheStep 1000
        ⟨some [nodeEntry 5, completeEntry 7], true, false, some 7, 500⟩
        (Raw.ok (.nodeInfo ⟨5, none, none, none, 3⟩))).config_cache =
      some [(Raw.ok (.nodeInfo ⟨5, none, none, none, 3⟩),
        create_frame (Raw.ok (.nodeInfo ⟨5, none, none, none, 3⟩))), completeEntry 7] ∧
    (3 : Nat) ≠ 1000 := by
  refine ⟨by decide, by decide, by decide⟩

/-- C4 (amended): for every completed cache (completeness implies
recording is off): a newly arrived `NodeInfo` for node N replaces the
matching node entry's (raw_payload, frame) pair in place verbatim when one
exists, and is inserted immediately before the terminal completion entry
when none exists; a position/telemetry/user sub-field update takes effect
only when a node entry for N exists and N is nonzero, in which case that
entry is replaced in place with the sub-field merged, its last-heard
timestamp refreshed to the current time, and the frame re-encoded; a
sub-field update for node 0 or for a node with no entry has no effect; and
no update is effective while the cache is not complete. -/
theorem cacheStep_nodeInfo_complete (now : Nat) (st : BridgeCache) (c : List Entry)
    (ni : NodeInfo) (hc : st.config_cache = some c)
    (hcomp : st.config_cache_complete = true) (hr : st.recording_config = false) :
    cacheStep now st (Raw.ok (.nodeInfo ni)) =
      (match replaceNodeLoop
          (Raw.ok (.nodeInfo ni), create_frame (Raw.ok (.nodeInfo ni))) ni.num
          c.dropLast with
       | some replaced => { st with config_cache := some (replaced ++ lastSeg c) }
       | none => { st with config_cache := some (c.dropLast ++
           (Raw.ok (.nodeInfo ni), create_frame (Raw.ok (.nodeInfo ni))) ::
             lastSeg c) }) := by
  simp [cacheStep, hc, parseFromRadio, hr, hcomp]

theorem cacheStep_packet_complete (now : Nat) (st : BridgeCache) (c : List Entry)
    (pk : MeshPacket) (d : MeshData) (hc : st.config_cache = some c)
    (hcomp : st.config_cache_complete = true) (hr : st.recording_config = false)
    (hd : pk.decoded = some d) :
    cacheStep now st (Raw.ok (.meshPacket pk)) =
      (if (updateType d.portnum).isSome ∧ pk.fromNode ≠ 0 then
        { st with config_cache := some (updateLoop now pk.fromNode d c.dropLast ++ lastSeg c) }
       else st) := by
  simp [cacheStep, hc, parseFromRadio, hr, hcomp, hd]

theorem apply_update_amended :
    (∀ (now : Nat) (st : BridgeCache) (p1 p2 : List Entry) (e t : Entry)
        (ni : NodeInfo),
      st.config_cache = some ((p1 ++ e :: p2) ++ [t]) →
      st.config_cache_complete = true → st.recording_config = false →
      (∀ x ∈ p1, isNodeWithNum ni.num x = false) → isNodeWithNum ni.num e = true →
      cacheStep now st (Raw.ok (.nodeInfo ni)) =
        { st with config_cache := some ((p1 ++
            (Raw.ok (.nodeInfo ni), create_frame (Raw.ok (.nodeInfo ni))) :: p2) ++
              [t]) }) ∧
    (∀ (now : Nat) (st : BridgeCache) (pre : List Entry) (t : Entry) (ni : NodeInfo),
      st.config_cache = some (pre ++ [t]) →
      st.config_cache_complete = true → st.recording_config = false →
      (∀ x ∈ pre, isNodeWithNum ni.num x = false) →
      cacheStep now st (Raw.ok (.nodeInfo ni)) =
        { st with config_cache := some (pre ++
            (Raw.ok (.nodeInfo ni), create_frame (Raw.ok (.nodeInfo ni))) :: [t]) }) ∧
    (∀ (now : Nat) (st : BridgeCache) (p1 p2 : List Entry) (e t : Entry)
        (ni ni2 : NodeInfo) (pk : MeshPacket) (d : MeshData),
      st.config_cache = some ((p1 ++ e :: p2) ++ [t]) →
      st.config_cache_complete = true → st.recording_config = false →
      (∀ x ∈ p1, isNodeWithNum pk.fromNode x = false) →
      e.1 = Raw.ok (.nodeInfo ni) → ni.num = pk.fromNode → pk.fromNode ≠ 0 →
      pk.decoded = some d → applySub now d ni = some ni2 →
      cacheStep now st (Raw.ok (.meshPacket pk)) =
        { st with config_cache := some ((p1 ++
            (Raw.ok (.nodeInfo ni2), create_frame (Raw.ok (.nodeInfo ni2))) :: p2) ++
              [t]) } ∧
      ni2.last_heard = now ∧ ni2.num = ni.num) ∧
    (∀ (now : Nat) (st : BridgeCache) (c : List Entry) (pk : MeshPacket) (d : MeshData),
      st.config_cache = some c →
      st.config_cache_complete = true → st.recording_config = false →
      pk.decoded = some d →
      (pk.fromNode = 0 ∨ ∀ x ∈ c, isNodeWithNum pk.fromNode x = false) →
      cacheStep now st (Raw.ok (.meshPacket pk)) = st) ∧
    (∀ (now : Nat) (st : BridgeCache) (raw : Raw),
      st.config_cache_complete = false → st.recording_config = false →
      cacheStep now st raw = st) := by
  refine ⟨?_, ?_, ?_, ?_, ?_⟩
  · intro now st p1 p2 e t ni hc hcomp hr h1 he
    rw [cacheStep_nodeInfo_complete now st ((p1 ++ e :: p2) ++ [t]) ni hc hcomp hr,
      List.dropLast_concat, replaceNodeLoop_found _ ni.num p1 e p2 h1 he,
      lastSeg_concat]
  · intro now st pre t ni hc hcomp hr h1
    rw [cacheStep_nodeInfo_complete now st (pre ++ [t]) ni hc hcomp hr,
      List.dropLast_concat, replaceNodeLoop_not_found _ ni.num pre h1,
      lastSeg_concat]
  · intro now st p1 p2 e t ni ni2 pk d hc hcomp hr h1 he hn h0 hd ha
    have hty := applySub_portnum now d ni ni2 ha
    refine ⟨?_, applySub_last_heard now d ni ni2 ha, applySub_num now d ni ni2 ha⟩
    rw [cacheStep_packet_complete now st ((p1 ++ e :: p2) ++ [t]) pk d hc hcomp hr hd,
      if_pos ⟨hty, h0⟩, List.dropLast_concat,
      updateLoop_found now pk.fromNode d p1 e p2 ni ni2 h1 he hn ha, lastSeg_concat]
  · intro now st c pk d hc hcomp hr hd habs
    rcases habs with h0 | hclean
    · rw [cacheStep_packet_complete now st c pk d hc hcomp hr hd,
        if_neg (fun hcond => hcond.2 h0)]
    · by_cases hty : (updateType d.portnum).isSome = true
      · by_cases h0 : pk.fromNode = 0
        · rw [cacheStep_packet_complete now st c pk d hc hcomp hr hd,
            if_neg (fun hcond => hcond.2 h0)]
        · have hupd : updateLoop now pk.fromNode d c.dropLast = c.dropLast :=
            updateLoop_not_found now pk.fromNode d c.dropLast
              (fun x hx => hclean x (List.mem_of_mem_dropLast hx))
          rw [cacheStep_packet_complete now st c pk d hc hcomp hr hd,
            if_pos ⟨hty, h0⟩, hupd, dropLast_append_lastSeg]
          exact set_same_cache st c hc
      · rw [cacheStep_packet_complete now st c pk d hc hcomp hr hd,
          if_neg (fun hcond => hty hcond.1)]
  · intro now st raw hcomp hr
    cases hcc : st.config_cache with
    | none => simp [cacheStep, hcc]
    | some c =>
      cases raw with
      | bad k => simp [cacheStep, hcc, parseFromRadio]
      | ok m => cases m <;> simp [cacheStep, hcc, parseFromRadio, hr, hcomp]

/-- Witness for the amended C4, instantiating every part at concrete
caches: replace-in-place, insert-before-terminal, sub-field merge,
sub-field no-effect for an absent node, and no effect before
completion. -/
theorem apply_update_amended_witness :
    cacheStep 4 ⟨some [nodeEntry 5, completeEntry 7], true, false, some 7, 500⟩
      (Raw.ok (.nodeInfo ⟨5, none, none, none, 9⟩)) =
      ⟨some [(Raw.ok (.nodeInfo ⟨5, none, none, none, 9⟩),
        create_frame (Raw.ok (.nodeInfo ⟨5, none, none, none, 9⟩))), completeEntry 7],
        true, false, some 7, 500⟩ ∧
    cacheStep 4 ⟨some [completeEntry 7], true, false, some 7, 500⟩
      (Raw.ok (.nodeInfo ⟨5, none, none, none, 9⟩)) =
      ⟨some [(Raw.ok (.nodeInfo ⟨5, none, none, none, 9⟩),
        create_frame (Raw.ok (.nodeInfo ⟨5, none, none, none, 9⟩))), completeEntry 7],
        true, false, some 7, 500⟩ ∧
    cacheStep 1000 ⟨some [nodeEntry 5, completeEntry 7], true, false, some 7, 500⟩
      (Raw.ok (.meshPacket ⟨5, some ⟨3, .positionBytes ⟨11⟩⟩⟩)) =
      ⟨some [(Raw.ok (.nodeInfo ⟨5, none, some ⟨11⟩, none, 1000⟩),
        create_frame (Raw.ok (.nodeInfo ⟨5, none, some ⟨11⟩, none, 1000⟩))),
        completeEntry 7], true, false, some 7, 500⟩ ∧
    cacheStep 1000 ⟨some [completeEntry 7], true, false, some 7, 500⟩
      (Raw.ok (.meshPacket ⟨5, some ⟨3, .positionBytes ⟨11⟩⟩⟩)) =
      ⟨some [completeEntry 7], true, false, some 7, 500⟩ ∧
    cacheStep 1000 ⟨some [], false, false, none, 500⟩ (Raw.ok (.nodeInfo ⟨5, none,
      none, none, 9⟩)) = ⟨some [], false, false, none, 500⟩ := by
  obtain ⟨w1, w2, w3, w4, w5⟩ := apply_update_amended
  refine ⟨?_, ?_, ?_, ?_, ?_⟩
  · exact w1 4 ⟨some [nodeEntry 5, completeEntry 7], true, false, some 7, 500⟩
      [] [] (nodeEntry 5) (completeEntry 7) ⟨5, none, none, none, 9⟩
      rfl rfl rfl (by simp) (by decide)
  · exact w2 4 ⟨some [completeEntry 7], true, false, some 7, 500⟩
      [] (completeEntry 7) ⟨5, none, none, none, 9⟩ rfl rfl rfl (by simp)
  · exact (w3 1000 ⟨some [nodeEntry 5, completeEntry 7], true, false, some 7, 500⟩
      [] [] (nodeEntry 5) (completeEntry 7) ⟨5, none, none, none, 0⟩
      ⟨5, none, some ⟨11⟩, none, 1000⟩ ⟨5, some ⟨3, .positionBytes ⟨11⟩⟩⟩
      ⟨3, .positionBytes ⟨11⟩⟩ rfl rfl rfl (by simp) rfl rfl (by decide) rfl
      (by decide)).1
  · exact w4 1000 ⟨some [completeEntry 7], true, false, some 7, 500⟩
      [completeEntry 7] ⟨5, some ⟨3, .positionBytes ⟨11⟩⟩⟩ ⟨3, .positionBytes ⟨11⟩⟩
      rfl rfl rfl rfl (Or.inr (by decide))
  · exact w5 1000 ⟨some [], false, false, none, 500⟩
      (Raw.ok (.nodeInfo ⟨5, none, none, none, 9⟩)) rfl rfl

/-- C5: applying the same node update twice to a completed cache is
idempotent: the second application leaves the state of the first
application unchanged, the cache ends with exactly one entry for that
node, whose content is the latest update's (raw_payload, frame) pair, and
the terminal completion entry is still last. -/
theorem node_merge_idempotent (t1 t2 : Nat) (st : BridgeCache) (pre : List Entry)
    (A : Nat) (f : Frame) (ni : NodeInfo)
    (hc : st.config_cache = some (pre ++ [(Raw.ok (.configComplete A), f)]))
    (hcomp : st.config_cache_complete = true) (hr : st.recording_config = false)
    (hone : (∀ x ∈ pre, isNodeWithNum ni.num x = false) ∨
      ∃ p1 e p2, pre = p1 ++ e :: p2 ∧ isNodeWithNum ni.num e = true ∧
        (∀ x ∈ p1, isNodeWithNum ni.num x = false) ∧
        (∀ x ∈ p2, isNodeWithNum ni.num x = false)) :
    cacheStep t2 (cacheStep t1 st (Raw.ok (.nodeInfo ni))) (Raw.ok (.nodeInfo ni)) =
      cacheStep t1 st (Raw.ok (.nodeInfo ni)) ∧
    ∃ c1, (cacheStep t1 st (Raw.ok (.nodeInfo ni))).config_cache = some c1 ∧
      c1.countP (fun x => isNodeWithNum ni.num x) = 1 ∧
      (∃ q1 q2, c1 = q1 ++
        (Raw.ok (.nodeInfo ni), create_frame (Raw.ok (.nodeInfo ni))) :: q2) ∧
      c1.getLast? = some (Raw.ok (.configComplete A), f) := by
  have hnew : isNodeWithNum ni.num
      (Raw.ok (.nodeInfo ni), create_frame (Raw.ok (.nodeInfo ni))) = true := by
    simp [isNodeWithNum, parseFromRadio]
  have hterm : isNodeWithNum ni.num (Raw.ok (.configComplete A), f) = false := rfl
  rcases hone with habs | ⟨p1, e, p2, hpre, he, h1, h2⟩
  · have e1 : cacheStep t1 st (Raw.ok (.nodeInfo ni)) =
        { st with config_cache := some ((pre ++
          [(Raw.ok (.nodeInfo ni), create_frame (Raw.ok (.nodeInfo ni)))]) ++
          [(Raw.ok (.configComplete A), f)]) } := by
      rw [cacheStep_nodeInfo_complete t1 st
        (pre ++ [(Raw.ok (.configComplete A), f)]) ni hc hcomp hr,
        List.dropLast_concat, replaceNodeLoop_not_found _ ni.num pre habs,
        lastSeg_concat]
      simp
    have e2 : cacheStep t2 ({ st with config_cache := some ((pre ++
          [(Raw.ok (.nodeInfo ni), create_frame (Raw.ok (.nodeInfo ni)))]) ++
          [(Raw.ok (.configComplete A), f)]) }) (Raw.ok (.nodeInfo ni)) =
        { st with config_cache := some ((pre ++
          [(Raw.ok (.nodeInfo ni), create_frame (Raw.ok (.nodeInfo ni)))]) ++
          [(Raw.ok (.configComplete A), f)]) } := by
      rw [cacheStep_nodeInfo_complete t2 ({ st with config_cache := some ((pre ++
          [(Raw.ok (.nodeInfo ni), create_frame (Raw.ok (.nodeInfo ni)))]) ++
          [(Raw.ok (.configComplete A), f)]) }) ((pre ++
          [(Raw.ok (.nodeInfo ni), create_frame (Raw.ok (.nodeInfo ni)))]) ++
          [(Raw.ok (.configComplete A), f)]) ni rfl hcomp hr,
        List.dropLast_concat,
        replaceNodeLoop_found _ ni.num pre _ [] habs hnew, lastSeg_concat]
    refine ⟨by rw [e1, e2], ?_⟩
    refine ⟨(pre ++
        [(Raw.ok (.nodeInfo ni), create_frame (Raw.ok (.nodeInfo ni)))]) ++
        [(Raw.ok (.configComplete A), f)], by rw [e1], ?_, ?_, ?_⟩
    · have hzero : pre.countP (fun x => isNodeWithNum ni.num x) = 0 :=
        List.countP_eq_zero.mpr (fun x hx => by simp [habs x hx])
      simp [List.countP_append, List.countP_cons, hnew, hterm, hzero]
    · exact ⟨pre, [(Raw.ok (.configComplete A), f)], by simp⟩
    · exact List.getLast?_concat _
  · subst hpre
    have e1 : cacheStep t1 st (Raw.ok (.nodeInfo ni)) =
        { st with config_cache := some ((p1 ++
          (Raw.ok (.nodeInfo ni), create_frame (Raw.ok (.nodeInfo ni))) :: p2) ++
          [(Raw.ok (.configComplete A), f)]) } := by
      rw [cacheStep_nodeInfo_complete t1 st
        ((p1 ++ e :: p2) ++ [(Raw.ok (.configComplete A), f)]) ni hc hcomp hr,
        List.dropLast_concat, replaceNodeLoop_found _ ni.num p1 e p2 h1 he,
        lastSeg_concat]
    have e2 : cacheStep t2 ({ st with config_cache := some ((p1 ++
          (Raw.ok (.nodeInfo ni), create_frame (Raw.ok (.nodeInfo ni))) :: p2) ++
          [(Raw.ok (.configComplete A), f)]) }) (Raw.ok (.nodeInfo ni)) =
        { st with config_cache := some ((p1 ++
          (Raw.ok (.nodeInfo ni), create_frame (Raw.ok (.nodeInfo ni))) :: p2) ++
          [(Raw.ok (.configComplete A), f)]) } := by
      rw [cacheStep_nodeInfo_complete t2 ({ st with config_cache := some ((p1 ++
          (Raw.ok (.nodeInfo ni), create_frame (Raw.ok (.nodeInfo ni))) :: p2) ++
          [(Raw.ok (.configComplete A), f)]) }) ((p1 ++
          (Raw.ok (.nodeInfo ni), create_frame (Raw.ok (.nodeInfo ni))) :: p2) ++
          [(Raw.ok (.configComplete A), f)]) ni rfl hcomp hr,
        List.dropLast_concat,
        replaceNodeLoop_found _ ni.num p1 _ p2 h1 hnew, lastSeg_concat]
    refine ⟨by rw [e1, e2], ?_⟩
    refine ⟨(p1 ++
        (Raw.ok (.nodeInfo ni), create_frame (Raw.ok (.nodeInfo ni))) :: p2) ++
        [(Raw.ok (.configComplete A), f)], by rw [e1], ?_, ?_, ?_⟩
    · have hz1 : p1.countP (fun x => isNodeWithNum ni.num x) = 0 :=
        List.countP_eq_zero.mpr (fun x hx => by simp [h1 x hx])
      have hz2 : p2.countP (fun x => isNodeWithNum ni.num x) = 0 :=
        List.countP_eq_zero.mpr (fun x hx => by simp [h2 x hx])
      simp [List.countP_append, List.countP_cons, hnew, hterm, hz1, hz2]
    · exact ⟨p1, p2 ++ [(Raw.ok (.configComplete A), f)], by simp⟩
    · exact List.getLast?_concat _

/-- Witness for C5 on a concrete completed cache holding only the
terminal entry. -/
theorem node_merge_idempotent_witness :
    cacheStep 2 (cacheStep 1 ⟨some [completeEntry 7], true, false, some 7, 500⟩
        (Raw.ok (.nodeInfo ⟨5, none, none, none, 9⟩)))
      (Raw.ok (.nodeInfo ⟨5, none, none, none, 9⟩)) =
      cacheStep 1 ⟨some [completeEntry 7], true, false, some 7, 500⟩
        (Raw.ok (.nodeInfo ⟨5, none, none, none, 9⟩)) ∧
    ∃ c1, (cacheStep 1 ⟨some [completeEntry 7], true, false, some 7, 500⟩
        (Raw.ok (.nodeInfo ⟨5, none, none, none, 9⟩))).config_cache = some c1 ∧
      c1.countP (fun x => isNodeWithNum 5 x) = 1 ∧
      (∃ q1 q2, c1 = q1 ++ (Raw.ok (.nodeInfo ⟨5, none, none, none, 9⟩),
        create_frame (Raw.ok (.nodeInfo ⟨5, none, none, none, 9⟩))) :: q2) ∧
      c1.getLast? = some (Raw.ok (.configComplete 7), create_frame (completeRaw 7)) :=
  node_merge_idempotent 1 2 ⟨some [completeEntry 7], true, false, some 7, 500⟩ []
    7 (create_frame (completeRaw 7)) ⟨5, none, none, none, 9⟩ rfl rfl rfl
    (Or.inl (by simp))

/-- Shared fact: a position/telemetry/user mesh-packet update whose sender
is node 0 or has no node entry in the completed cache leaves the bridge
state untouched. -/
theorem packet_no_effect (now : Nat) (st : BridgeCache) (c : List Entry)
    (pk : MeshPacket) (d : MeshData) (hc : st.config_cache = some c)
    (hcomp : st.config_cache_complete = true) (hr : st.recording_config = false)
    (hd : pk.decoded = some d)
    (habs : pk.fromNode = 0 ∨ ∀ x ∈ c, isNodeWithNum pk.fromNode x = false) :
    cacheStep now st (Raw.ok (.meshPacket pk)) = st := by
  rcases habs with h0 | hclean
  · rw [cacheStep_packet_complete now st c pk d hc hcomp hr hd,
      if_neg (fun hcond => hcond.2 h0)]
  · by_cases hty : (updateType d.portnum).isSome = true
    · by_cases h0 : pk.fromNode = 0
      · rw [cacheStep_packet_complete now st c pk d hc hcomp hr hd,
          if_neg (fun hcond => hcond.2 h0)]
      · have hupd : updateLoop now pk.fromNode d c.dropLast = c.dropLast :=
          updateLoop_not_found now pk.fromNode d c.dropLast
            (fun x hx => hclean x (List.mem_of_mem_dropLast hx))
        rw [cacheStep_packet_complete now st c pk d hc hcomp hr hd,
          if_pos ⟨hty, h0⟩, hupd, dropLast_append_lastSeg]
        exact set_same_cache st c hc
    · rw [cacheStep_packet_complete now st c pk d hc hcomp hr hd,
        if_neg (fun hcond => hty hcond.1)]

theorem cacheNodeNums_append (a b : List Entry) :
    cacheNodeNums (a ++ b) = cacheNodeNums a ++ cacheNodeNums b := by
  simp [cacheNodeNums, List.filterMap_append]

/-- C10: against a completed cache, a position/telemetry/user mesh-packet
update whose sender is node 0 or has no node entry in the cache leaves the
bridge state completely unchanged; and any inbound payload that is not a
full `NodeInfo` message preserves both the node numbers present in the
cache and the number of cache entries — only a `NodeInfo` can add a node
entry after completion. -/
theorem completed_cache_node_stability (now : Nat) (st : BridgeCache)
    (c : List Entry) (hc : st.config_cache = some c)
    (hcomp : st.config_cache_complete = true) (hr : st.recording_config = false) :
    (∀ (pk : MeshPacket) (d : MeshData), pk.decoded = some d →
      (d.portnum = 3 ∨ d.portnum = 67 ∨ d.portnum = 4) →
      (pk.fromNode = 0 ∨ ∀ x ∈ c, isNodeWithNum pk.fromNode x = false) →
      cacheStep now st (Raw.ok (.meshPacket pk)) = st) ∧
    (∀ raw : Raw, (∀ ni : NodeInfo, parseFromRadio raw ≠ some (.nodeInfo ni)) →
      (cacheStep now st raw).config_cache.map cacheNodeNums =
        some (cacheNodeNums c) ∧
      (cacheStep now st raw).config_cache.map List.length = some c.length) := by
  constructor
  · intro pk d hd _ habs
    exact packet_no_effect now st c pk d hc hcomp hr hd habs
  · intro raw hnm
    cases raw with
    | bad k =>
      have hst : cacheStep now st (Raw.bad k) = st := by
        simp [cacheStep, hc, parseFromRadio]
      rw [hst, hc]
      exact ⟨rfl, rfl⟩
    | ok m =>
      cases m with
      | nodeInfo ni => exact absurd rfl (hnm ni)
      | meshPacket pk =>
        cases hd : pk.decoded with
        | none =>
          have hst : cacheStep now st (Raw.ok (.meshPacket pk)) = st := by
            simp [cacheStep, hc, parseFromRadio, hr, hcomp, hd]
          rw [hst, hc]
          exact ⟨rfl, rfl⟩
        | some d =>
          rw [cacheStep_packet_complete now st c pk d hc hcomp hr hd]
          by_cases hcond : (updateType d.portnum).isSome ∧ pk.fromNode ≠ 0
          · rw [if_pos hcond]
            constructor
            · show some (cacheNodeNums
                (updateLoop now pk.fromNode d c.dropLast ++ lastSeg c)) =
                some (cacheNodeNums c)
              rw [cacheNodeNums_append, cacheNodeNums_updateLoop,
                ← cacheNodeNums_append, dropLast_append_lastSeg]
            · show some (updateLoop now pk.fromNode d c.dropLast ++
                lastSeg c).length = some c.length
              rw [List.length_append, updateLoop_length, ← List.length_append,
                dropLast_append_lastSeg]
          · rw [if_neg hcond, hc]
            exact ⟨rfl, rfl⟩
      | configComplete cid =>
        have hst : cacheStep now st (Raw.ok (.configComplete cid)) = st := by
          simp [cacheStep, hc, parseFromRadio, hr]
        rw [hst, hc]
        exact ⟨rfl, rfl⟩
      | myInfo a =>
        have hst : cacheStep now st (Raw.ok (.myInfo a)) = st := by
          simp [cacheStep, hc, parseFromRadio, hr, hcomp]
        rw [hst, hc]
        exact ⟨rfl, rfl⟩
      | configMsg a =>
        have hst : cacheStep now st (Raw.ok (.configMsg a)) = st := by
          simp [cacheStep, hc, parseFromRadio, hr, hcomp]
        rw [hst, hc]
        exact ⟨rfl, rfl⟩
      | moduleConfig a =>
        have hst : cacheStep now st (Raw.ok (.moduleConfig a)) = st := by
          simp [cacheStep, hc, parseFromRadio, hr, hcomp]
        rw [hst, hc]
        exact ⟨rfl, rfl⟩
      | channel a =>
        have hst : cacheStep now st (Raw.ok (.channel a)) = st := by
          simp [cacheStep, hc, parseFromRadio, hr, hcomp]
        rw [hst, hc]
        exact ⟨rfl, rfl⟩
      | otherVariant a =>
        have hst : cacheStep now st (Raw.ok (.otherVariant a)) = st := by
          simp [cacheStep, hc, parseFromRadio, hr, hcomp]
        rw [hst, hc]
        exact ⟨rfl, rfl⟩

/-- Witness for C10 on a concrete completed cache. -/
theorem completed_cache_node_stability_witness :
    cacheStep 1000 ⟨some [completeEntry 7], true, false, some 7, 500⟩
      (Raw.ok (.meshPacket ⟨5, some ⟨3, .positionBytes ⟨11⟩⟩⟩)) =
      ⟨some [completeEntry 7], true, false, some 7, 500⟩ ∧
    (cacheStep 1000 ⟨some [completeEntry 7], true, false, some 7, 500⟩
      (Raw.ok (.myInfo 0))).config_cache.map cacheNodeNums =
      some (cacheNodeNums [completeEntry 7]) := by
  obtain ⟨w1, w2⟩ := completed_cache_node_stability 1000
    ⟨some [completeEntry 7], true, false, some 7, 500⟩ [completeEntry 7] rfl rfl rfl
  refine ⟨?_, ?_⟩
  · exact w1 ⟨5, some ⟨3, .positionBytes ⟨11⟩⟩⟩ ⟨3, .positionBytes ⟨11⟩⟩ rfl
      (Or.inl rfl) (Or.inr (by decide))
  · exact (w2 (Raw.ok (.myInfo 0)) (fun ni h => by simp [parseFromRadio] at h)).1

/-! ## Reconnect exhaustion (claim C8) -/

theorem reconnectGo_length_le (o : Nat → Bool) :
    ∀ (fuel : Nat) (st : SessionState),
      ((reconnectGo o fuel st).2.2).length ≤ fuel := by
  intro fuel
  induction fuel with
  | zero => intro st; simp [reconnectGo]
  | succ n ih =>
    intro st
    simp only [reconnectGo]
    split
    · split
      · simp
      · split
        · simp
        · simpa using ih { st with reconnect_attempts := st.reconnect_attempts + 1, is_reconnecting := true }
    · simp

theorem reconnectGo_success_resets (o : Nat → Bool) :
    ∀ (fuel : Nat) (st : SessionState), (reconnectGo o fuel st).2.1 = true →
      (reconnectGo o fuel st).1.reconnect_attempts = 0 := by
  intro fuel
  induction fuel with
  | zero => intro st h; simp [reconnectGo] at h
  | succ n ih =>
    intro st
    simp only [reconnectGo]
    split
    · split
      · intro _; rfl
      · split
        · intro h; simp at h
        · intro h
          exact ih { st with reconnect_attempts := st.reconnect_attempts + 1, is_reconnecting := true } h
    · intro h; simp at h

theorem reconnectGo_all_fail (o : Nat → Bool) :
    ∀ (fuel : Nat) (st : SessionState),
      (∀ k, st.reconnect_attempts < k → k ≤ st.reconnect_attempts + fuel →
        o k = false) →
      (reconnectGo o fuel st).2.1 = false := by
  intro fuel
  induction fuel with
  | zero => intro st _; simp [reconnectGo]
  | succ n ih =>
    intro st hf
    have ho : o (st.reconnect_attempts + 1) = false :=
      hf _ (Nat.lt_succ_self _) (by omega)
    simp only [reconnectGo, ho]
    split
    · split
      · simp_all
      · split
        · simp
        · refine ih { st with reconnect_attempts := st.reconnect_attempts + 1, is_reconnecting := true } (fun k hk1 hk2 => hf k ?_ ?_)
          · have hk1a : st.reconnect_attempts + 1 < k := hk1
            omega
          · have hk2a : k ≤ st.reconnect_attempts + 1 + n := hk2
            omega
    · rfl

/-- C8: starting from a fresh session, the reconnect loop makes at most 5
attempts (one backoff delay per attempt); if every one of the first five
connect attempts fails, the poll loop's connection-lost handler exits the
process with status 1 (a non-zero status); and whenever the loop reports
success the attempt counter has been reset to zero and polling
continues. -/
theorem reconnect_exhaustion (o : Nat → Bool) :
    ((attempt_reconnection o ⟨0, false, true⟩).2.2).length ≤
      MAX_RECONNECT_ATTEMPTS ∧
    ((∀ k, 1 ≤ k → k ≤ MAX_RECONNECT_ATTEMPTS → o k = false) →
      pollOnConnectionLost o ⟨0, false, true⟩ = .exit 1 ∧ (1 : Nat) ≠ 0) ∧
    (∀ (st2 : SessionState) (ok : Bool) (ds : List ℚ),
      attempt_reconnection o ⟨0, false, true⟩ = (st2, ok, ds) → ok = true →
      st2.reconnect_attempts = 0 ∧
      pollOnConnectionLost o ⟨0, false, true⟩ = .keepPolling st2) := by
  have hstart : attempt_reconnection o ⟨0, false, true⟩ =
      reconnectGo o MAX_RECONNECT_ATTEMPTS ⟨0, true, true⟩ := by
    simp [attempt_reconnection]
  refine ⟨?_, ?_, ?_⟩
  · rw [hstart]
    exact reconnectGo_length_le o MAX_RECONNECT_ATTEMPTS ⟨0, true, true⟩
  · intro hf
    have hfail : (attempt_reconnection o ⟨0, false, true⟩).2.1 = false := by
      rw [hstart]
      exact reconnectGo_all_fail o MAX_RECONNECT_ATTEMPTS ⟨0, true, true⟩
        (fun k hk1 hk2 => hf k (by omega) (by simpa using hk2))
    refine ⟨?_, by decide⟩
    simp [pollOnConnectionLost, hfail]
  · intro st2 ok ds heq hok
    subst hok
    have h1 : (attempt_reconnection o ⟨0, false, true⟩).2.1 = true := by
      rw [heq]
    have h2 : st2.reconnect_attempts = 0 := by
      have := reconnectGo_success_resets o MAX_RECONNECT_ATTEMPTS ⟨0, true, true⟩
        (by rw [← hstart]; exact h1)
      rw [← hstart, heq] at this
      exact this
    refine ⟨h2, ?_⟩
    simp [pollOnConnectionLost, h1, heq]

/-- Witness for C8: with every connect attempt failing the handler exits
with status 1; with the first attempt succeeding the counter is reset and
polling continues. -/
theorem reconnect_exhaustion_witness :
    (pollOnConnectionLost (fun _ => false) ⟨0, false, true⟩ = .exit 1 ∧
      (1 : Nat) ≠ 0) ∧
    ((⟨0, false, true⟩ : SessionState).reconnect_attempts = 0 ∧
      pollOnConnectionLost (fun _ => true) ⟨0, false, true⟩ =
        .keepPolling ⟨0, false, true⟩) := by
  constructor
  · exact (reconnect_exhaustion (fun _ => false)).2.1 (fun k _ _ => rfl)
  · exact (reconnect_exhaustion (fun _ => true)).2.2 ⟨0, false, true⟩ true
      [reconnectDelay 1] rfl rfl

end MeshBridge
